import Mathlib

/-!
Verification of the Twilio Media Streams transport (package `transport`,
file with `Provider`, `Connection`, `audioWriter`, `audioReader`).

Shallow embedding conventions:
* Go byte slices (`[]byte`) become `List Nat` (one `Nat` per byte).
* A buffered Go channel of audio chunks becomes a `List` of chunks plus an
  explicit capacity parameter `cap` (the source uses capacity 100 for both
  audio channels); channel-closed state is an explicit `Bool`.
* Sending on the (per-connection) event channel is recorded by appending to an
  `emitted` history list; the claims under study emit at most five events, far
  below the channel's capacity of 100, so a send never blocks.
* `json.Unmarshal` is external; the receive loop's input is thus modelled as a
  list of read results: a successfully decoded `mediaMessage`, a
  `malformed` unit (unmarshal error, the loop `continue`s), or a socket read
  error carrying an optional websocket close code.
* `base64.StdEncoding.DecodeString` is embedded as an executable standard
  base64 decoder (`b64decode`).
* Blocking forever (reading an open empty channel; acquiring a mutex already
  held by the caller's own goroutine) is modelled as `Option.none`.
-/

namespace TwilioMS

/-- A chunk of audio bytes (Go `[]byte`). -/
abbrev Chunk := List Nat

/-- The Go `error` values the buffer code can return: `io.ErrClosedPipe`
from `audioWriter.Write` and `io.EOF` from `audioReader.Read`. -/
inductive IoError
  | closedPipe
  | eof
deriving DecidableEq

/-- A socket read error. `closeCode = some n` models a
`websocket.CloseError` with code `n`; `none` models any other error. -/
structure SocketErr where
  closeCode : Option Nat
deriving DecidableEq

/-- Mirrors `websocket.IsCloseError(err, codes...)`: true iff the error is a
CloseError whose code is among `codes`. -/
def isCloseErrorOn (e : SocketErr) (codes : List Nat) : Bool :=
  match e.closeCode with
  | some c => codes.contains c
  | none => false

/-- The `transport.EventType` values used by this provider. -/
inductive EvType
  | connected
  | audioStarted
  | dtmf
  | audioStopped
  | disconnected
  | error
deriving DecidableEq

/-- Mirrors `transport.Event`: a type tag, a `Data` string (zero value `""`)
and an `Error` field (zero value `nil`). -/
structure Event where
  type : EvType
  data : String
  err : Option SocketErr
deriving DecidableEq

def evConnected : Event := ⟨EvType.connected, "", none⟩
def evAudioStarted : Event := ⟨EvType.audioStarted, "", none⟩
def evDTMF (digit : String) : Event := ⟨EvType.dtmf, digit, none⟩
def evAudioStopped : Event := ⟨EvType.audioStopped, "", none⟩
def evDisconnected : Event := ⟨EvType.disconnected, "", none⟩
def evError (e : SocketErr) : Event := ⟨EvType.error, "", some e⟩

/-! ## audioWriter (outbound buffer, `Connection.audioIn`) -/

/-- State of `audioWriter`: the buffered channel contents (oldest first) and
the closed flag. -/
structure audioWriter where
  queue : List Chunk
  closed : Bool
deriving DecidableEq

def newAudioWriter : audioWriter := ⟨[], false⟩

/-- Embeds `audioWriter.Write` with channel capacity `cap`. If closed it
returns `(0, io.ErrClosedPipe)`. Otherwise the non-blocking send succeeds when
the channel has room; when full, the inner `select` receives (discards) the
oldest queued chunk and the subsequent blocking send enqueues the new chunk.
Either way it returns `(len(p), nil)`. -/
def audioWriter.Write (cap : Nat) (w : audioWriter) (p : Chunk) :
    audioWriter × (Nat × Option IoError) :=
  if w.closed then (w, (0, some IoError.closedPipe))
  else if w.queue.length < cap then
    ({ w with queue := w.queue ++ [p] }, (p.length, none))
  else
    ({ w with queue := w.queue.tail ++ [p] }, (p.length, none))

/-- Embeds `audioWriter.Close`: sets the flag and closes the channel once. -/
def audioWriter.Close (w : audioWriter) : audioWriter :=
  if w.closed then w else { w with closed := true }

/-- Applies `audioWriter.Write` to each chunk in order, collecting the
returned `(n, err)` pairs. -/
def writeMany (cap : Nat) (w : audioWriter) :
    List Chunk → audioWriter × List (Nat × Option IoError)
  | [] => (w, [])
  | p :: ps =>
    let r := audioWriter.Write cap w p
    let rest := writeMany cap r.1 ps
    (rest.1, r.2 :: rest.2)

/-! ## audioReader (inbound buffer, `Connection.audioOut`) -/

/-- State of `audioReader`: the buffered channel contents (oldest first), the
carry-over `buffer` holding the unread remainder of a partially read chunk,
and whether the channel has been closed. -/
structure audioReader where
  queue : List Chunk
  buffer : Chunk
  closed : Bool
deriving DecidableEq

def newAudioReader : audioReader := ⟨[], [], false⟩

/-- Embeds `audioReader.Read` for a destination of length `plen`. Buffered
remainder is served first; otherwise a chunk is received from the channel
(`none` models blocking on an open empty channel; a closed drained channel
yields `(0, io.EOF)`); a chunk longer than the destination leaves its
remainder in `buffer`. The returned `Chunk` is the bytes copied out. -/
def audioReader.Read (r : audioReader) (plen : Nat) :
    Option (audioReader × (Chunk × Option IoError)) :=
  if r.buffer.length > 0 then
    let n := min plen r.buffer.length
    some ({ r with buffer := r.buffer.drop n }, (r.buffer.take n, none))
  else
    match r.queue with
    | data :: rest =>
      let n := min plen data.length
      let buf := if n < data.length then data.drop n else r.buffer
      some ({ r with queue := rest, buffer := buf }, (data.take n, none))
    | [] =>
      if r.closed then some (r, ([], some IoError.eof)) else none

/-- Embeds `audioReader.write` with channel capacity `cap`: a non-blocking
send that enqueues when the channel has room and otherwise drops `data`. -/
def audioReader.write (cap : Nat) (r : audioReader) (data : Chunk) :
    audioReader :=
  if r.queue.length < cap then { r with queue := r.queue ++ [data] } else r

/-- Embeds `audioReader.close`: closes the channel. -/
def audioReader.close (r : audioReader) : audioReader :=
  { r with closed := true }

/-- Applies `audioReader.write` to each chunk in order (the receive loop
delivering decoded audio). -/
def deliverMany (cap : Nat) (r : audioReader) : List Chunk → audioReader
  | [] => r
  | d :: ds => deliverMany cap (audioReader.write cap r d) ds

/-- All bytes still held by the reader, in the order a consumer will see
them: the carry-over buffer first, then the queued chunks. -/
def pendingBytes (r : audioReader) : Chunk :=
  r.buffer ++ r.queue.flatten

/-- Performs one `audioReader.Read` per entry of `sizes` (each entry the
destination length of that call), collecting the byte slices returned.
Stops if a read would block. -/
def readExec (r : audioReader) : List Nat → List Chunk × audioReader
  | [] => ([], r)
  | sz :: rest =>
    match audioReader.Read r sz with
    | none => ([], r)
    | some (r1, (out, _)) =>
      let t := readExec r1 rest
      (out :: t.1, t.2)

/-! ## base64 (embeds `base64.StdEncoding.DecodeString`) -/

/-- Value of one character of the standard base64 alphabet. -/
def b64val (c : Char) : Option Nat :=
  if 65 ≤ c.toNat ∧ c.toNat ≤ 90 then some (c.toNat - 65)
  else if 97 ≤ c.toNat ∧ c.toNat ≤ 122 then some (c.toNat - 97 + 26)
  else if 48 ≤ c.toNat ∧ c.toNat ≤ 57 then some (c.toNat - 48 + 52)
  else if c = '+' then some 62
  else if c = '/' then some 63
  else none

/-- Decodes a base64 character stream four characters at a time, with `=`
padding allowed only in the final quantum; any other shape is a decode
error (`none`), as in Go's `StdEncoding`. -/
def b64groups : List Char → Option (List Nat)
  | [] => some []
  | c1 :: c2 :: c3 :: c4 :: rest =>
    match b64val c1, b64val c2 with
    | some v1, some v2 =>
      if c3 = '=' then
        if c4 = '=' ∧ rest = [] then some [v1 * 4 + v2 / 16] else none
      else
        match b64val c3 with
        | some v3 =>
          if c4 = '=' then
            if rest = [] then
              some [v1 * 4 + v2 / 16, v2 % 16 * 16 + v3 / 4]
            else none
          else
            match b64val c4, b64groups rest with
            | some v4, some tl =>
              some ((v1 * 4 + v2 / 16) :: (v2 % 16 * 16 + v3 / 4) ::
                    (v3 % 4 * 64 + v4) :: tl)
            | _, _ => none
        | none => none
    | _, _ => none
  | _ => none

/-- Embeds `base64.StdEncoding.DecodeString`. -/
def b64decode (s : String) : Option (List Nat) := b64groups s.data

/-! ## Wire messages (`mediaMessage` and nested payloads) -/

/-- Mirrors `startMessage` (the fields the receive loop uses, plus account). -/
structure startMessage where
  streamSID : String := ""
  accountSID : String := ""
  callSID : String := ""
deriving DecidableEq

/-- Mirrors `mediaPayload`. -/
structure mediaPayload where
  track : String := ""
  chunk : String := ""
  timestamp : String := ""
  payload : String := ""
deriving DecidableEq

/-- Mirrors `markMessage`. -/
structure markMessage where
  name : String := ""
deriving DecidableEq

/-- Mirrors `stopMessage`. -/
structure stopMessage where
  accountSID : String := ""
  callSID : String := ""
deriving DecidableEq

/-- Mirrors `dtmfMessage`. -/
structure dtmfMessage where
  digit : String := ""
deriving DecidableEq

/-- Mirrors `mediaMessage`: the decoded JSON envelope, with the string
discriminator `event` and one optional nested payload per variant. -/
structure mediaMessage where
  event : String := ""
  streamSID : String := ""
  start : Option startMessage := none
  media : Option mediaPayload := none
  mark : Option markMessage := none
  stop : Option stopMessage := none
  dtmf : Option dtmfMessage := none
deriving DecidableEq

/-- A well-formed `connected` frame. -/
def connectedMsg : mediaMessage := { event := "connected" }

/-- A well-formed `start` frame carrying `st`. -/
def startMsg (st : startMessage) : mediaMessage :=
  { event := "start", start := some st }

/-- A well-formed `media` frame carrying `p`. -/
def mediaMsg (p : mediaPayload) : mediaMessage :=
  { event := "media", media := some p }

/-- A well-formed `dtmf` frame carrying digit `d`. -/
def dtmfMsg (d : String) : mediaMessage :=
  { event := "dtmf", dtmf := some (dtmfMessage.mk d) }

/-- A well-formed `stop` frame. -/
def stopMsg : mediaMessage := { event := "stop", stop := some {} }

/-- A well-formed `mark` frame. -/
def markMsg (nm : String) : mediaMessage :=
  { event := "mark", mark := some (markMessage.mk nm) }

/-! ## Connection state and Close -/

/-- Mirrors `Connection`, with the state the claims observe. Channel closes
and other teardown effects are recorded both as flags and as counters so that
"exactly once" is expressible. `emitted` is the full history of events sent
on the `events` channel. -/
structure Connection where
  streamSID : String
  callSID : String
  emitted : List Event
  eventsClosed : Bool
  audioIn : audioWriter
  audioOut : audioReader
  closed : Bool
  closeOnceDone : Bool
  doneClosed : Bool
  socketClosed : Bool
  socketCloseCount : Nat
  eventsCloseCount : Nat
  audioInCloseCount : Nat
  audioOutCloseCount : Nat
  registryDeleteCount : Nat
deriving DecidableEq

/-- The connection as constructed by `HandleWebSocket`: empty identity,
fresh buffers, nothing closed. -/
def newConnection : Connection where
  streamSID := ""
  callSID := ""
  emitted := []
  eventsClosed := false
  audioIn := newAudioWriter
  audioOut := newAudioReader
  closed := false
  closeOnceDone := false
  doneClosed := false
  socketClosed := false
  socketCloseCount := 0
  eventsCloseCount := 0
  audioInCloseCount := 0
  audioOutCloseCount := 0
  registryDeleteCount := 0

/-- The provider's `connections` map, as its set of stream-id keys (one
`Connection` value is under study, so keys suffice). -/
abbrev Registry := List String

/-- Go map assignment `connections[sid] = c` on the key set. -/
def insertKey (reg : Registry) (sid : String) : Registry :=
  if reg.contains sid then reg else reg ++ [sid]

/-- Embeds `Connection.Close` (the `closeOnce.Do` body followed by
`return nil`): on first invocation it marks closed, closes `done`, closes
both buffers, closes the event channel, closes the socket, and deletes the
stream-id entry from the provider's map; later invocations skip the body.
The provider mutex it takes around the delete is uncontended on every path
modelled here (see `Provider.Close` for the contended case). -/
def Connection.Close (c : Connection) (reg : Registry) :
    (Connection × Registry) × Option IoError :=
  if c.closeOnceDone then ((c, reg), none)
  else
    let c1 := { c with closed := true, closeOnceDone := true,
                       doneClosed := true }
    let c2 := { c1 with audioIn := audioWriter.Close c1.audioIn,
                        audioInCloseCount := c1.audioInCloseCount +
                          (if c1.audioIn.closed then 0 else 1) }
    let c3 := { c2 with audioOut := audioReader.close c2.audioOut,
                        audioOutCloseCount := c2.audioOutCloseCount + 1 }
    let c4 := { c3 with eventsClosed := true,
                        eventsCloseCount := c3.eventsCloseCount + 1 }
    let c5 := { c4 with socketClosed := true,
                        socketCloseCount := c4.socketCloseCount + 1 }
    let c6 := { c5 with registryDeleteCount := c5.registryDeleteCount + 1 }
    ((c6, reg.erase c6.streamSID), none)

/-- Invokes `Connection.Close` `n` times in sequence, collecting the `n`
returned error values. -/
def closeIter : Nat → Connection → Registry →
    (Connection × Registry) × List (Option IoError)
  | 0, c, reg => ((c, reg), [])
  | n + 1, c, reg =>
    let r := Connection.Close c reg
    let t := closeIter n r.1.1 r.1.2
    (t.1, r.2 :: t.2)

/-- A connection on which no teardown has happened yet: `closeOnce` not
fired, outbound buffer still open, all teardown counters zero. -/
def Connection.pristine (c : Connection) : Bool :=
  !c.closeOnceDone && !c.audioIn.closed &&
  (c.socketCloseCount == 0) && (c.eventsCloseCount == 0) &&
  (c.audioInCloseCount == 0) && (c.audioOutCloseCount == 0) &&
  (c.registryDeleteCount == 0)

/-! ## The receive loop (`Connection.readLoop`) -/

/-- One unit of input to the receive loop: a successfully unmarshalled
envelope, an unmarshal failure (the loop `continue`s), or a
`wsConn.ReadMessage` error. -/
inductive Inbound
  | msg (m : mediaMessage)
  | malformed
  | readErr (e : SocketErr)
deriving DecidableEq

/-- The state the receive loop acts on: its connection, the provider's
stream-id map, whether a provider DTMF handler is registered, and the digits
the handler has been invoked with (in order). -/
structure LoopState where
  conn : Connection
  registry : Registry
  dtmfHandlerSet : Bool
  dtmfCalls : List String
deriving DecidableEq

/-- Sends event `e` on the connection's event channel. -/
def emitLS (s : LoopState) (e : Event) : LoopState :=
  { s with conn := { s.conn with emitted := s.conn.emitted ++ [e] } }

/-- The `defer c.Close()` of the receive loop (return value discarded). -/
def loopClose (s : LoopState) : LoopState :=
  let r := Connection.Close s.conn s.registry
  { s with conn := r.1.1, registry := r.1.2 }

/-- The `start` case: if the nested payload is present, bind stream id and
call id, register the connection under the stream id, and emit
`AudioStarted`. -/
def startCase (s : LoopState) (so : Option startMessage) : LoopState :=
  match so with
  | some st =>
    let s1 := { s with
      conn := { s.conn with streamSID := st.streamSID,
                            callSID := st.callSID },
      registry := insertKey s.registry st.streamSID }
    emitLS s1 evAudioStarted
  | none => s

/-- The `media` case: if the payload is present and non-empty, base64-decode
it and write it to the inbound buffer; a decode failure (or absent/empty
payload) does nothing. No event is emitted. -/
def mediaCase (cap : Nat) (s : LoopState) (mo : Option mediaPayload) :
    LoopState :=
  match mo with
  | some mp =>
    if mp.payload ≠ "" then
      match b64decode mp.payload with
      | some audio =>
        { s with conn := { s.conn with
            audioOut := audioReader.write cap s.conn.audioOut audio } }
      | none => s
    else s
  | none => s

/-- The `dtmf` case: if the nested payload is present, emit the DTMF event
and then invoke the provider's DTMF handler when one is registered. -/
def dtmfCase (s : LoopState) (od : Option dtmfMessage) : LoopState :=
  match od with
  | some d =>
    let s1 := emitLS s (evDTMF d.digit)
    if s1.dtmfHandlerSet then { s1 with dtmfCalls := s1.dtmfCalls ++ [d.digit] }
    else s1
  | none => s

/-- Embeds `Connection.readLoop` over a list of read results. Each
iteration first checks the `done` channel; a read error emits an `Error`
event unless it is a close error with code 1000 (normal closure) or 1001
(going away) and then exits; an unmarshal failure `continue`s; otherwise
dispatch is on the `event` discriminator, with `stop` emitting
`AudioStopped` then `Disconnected` and exiting, `mark` and unknown
discriminators doing nothing. Every exit runs the deferred `Close`.
An exhausted input list leaves the loop blocked in `ReadMessage`
(state returned as-is, no teardown). -/
def readLoop (cap : Nat) : LoopState → List Inbound → LoopState
  | s, [] => s
  | s, i :: rest =>
    if s.conn.doneClosed then loopClose s
    else
      match i with
      | Inbound.readErr e =>
        if isCloseErrorOn e [1000, 1001] then loopClose s
        else loopClose (emitLS s (evError e))
      | Inbound.malformed => readLoop cap s rest
      | Inbound.msg m =>
        if m.event = "connected" then readLoop cap (emitLS s evConnected) rest
        else if m.event = "start" then readLoop cap (startCase s m.start) rest
        else if m.event = "media" then
          readLoop cap (mediaCase cap s m.media) rest
        else if m.event = "dtmf" then readLoop cap (dtmfCase s m.dtmf) rest
        else if m.event = "stop" then
          loopClose (emitLS (emitLS s evAudioStopped) evDisconnected)
        else if m.event = "mark" then readLoop cap s rest
        else readLoop cap s rest

/-- A fresh loop state for a just-accepted socket: new connection, the given
provider map and handler flag. -/
def initLoop (reg : Registry) (handlerSet : Bool) : LoopState :=
  ⟨newConnection, reg, handlerSet, []⟩

/-- The cumulative effect of the receive loop handling a run of `media`
frames: `mediaCase` applied once per payload, in order. -/
def mediaBatch (cap : Nat) : LoopState → List mediaPayload → LoopState
  | s, [] => s
  | s, p :: ps => mediaBatch cap (mediaCase cap s (some p)) ps

/-- The inbound frame sequence of claim C1:
connected, start, N media frames, dtmf, stop. -/
def seqC1 (st : startMessage) (ps : List mediaPayload) (d : String) :
    List Inbound :=
  Inbound.msg connectedMsg :: Inbound.msg (startMsg st) ::
    (ps.map fun p => Inbound.msg (mediaMsg p)) ++
    [Inbound.msg (dtmfMsg d), Inbound.msg stopMsg]

/-! ## Provider.Close (registry shutdown) -/

/-- The provider state `Provider.Close` acts on: for each tracked
connection, whether its `closeOnce` has already fired; plus the number of
registered listener channels. -/
structure Provider where
  connections : List Bool
  listeners : Nat
deriving DecidableEq

/-- Calls `conn.Close()` for each tracked connection while the caller holds
`p.mu` for writing. A connection whose `closeOnce` already fired returns at
once; otherwise its close body ends with `c.provider.mu.Lock()` on the very
mutex the caller holds — `sync.RWMutex` is not reentrant, so that call never
returns (`none`). -/
def closeConnsUnderLock : List Bool → Option Unit
  | [] => some ()
  | onceDone :: rest =>
    if onceDone then closeConnsUnderLock rest else none

/-- Embeds `Provider.Close`: takes `p.mu.Lock()`, calls `Close` on every
tracked connection (see `closeConnsUnderLock` for the re-entrant lock),
closes every listener channel, resets both maps to fresh empty maps and
returns `nil`. `none` means the call never returns. -/
def Provider.Close (p : Provider) : Option (Provider × Option IoError) :=
  match closeConnsUnderLock p.connections with
  | some _ => some (⟨[], 0⟩, none)
  | none => none

/-! ## Theorems -/

/-- Full characterization of a run of `audioWriter.Write` calls on an open
writer: the queue keeps the newest `cap` of the chunks seen, and every call
returns `(len(p), nil)`. -/
theorem writeMany_open (cap : Nat) (hcap : 0 < cap) (chunks q : List Chunk)
    (hq : q.length ≤ cap) :
    writeMany cap ⟨q, false⟩ chunks =
      (⟨(q ++ chunks).drop (q.length + chunks.length - cap), false⟩,
       chunks.map fun p => (p.length, (none : Option IoError))) := by
  induction chunks generalizing q with
  | nil =>
    simp only [writeMany, List.append_nil, List.length_nil, Nat.add_zero,
      List.map_nil]
    rw [Nat.sub_eq_zero_of_le hq, List.drop_zero]
  | cons p ps ih =>
    by_cases hlt : q.length < cap
    · have hw : audioWriter.Write cap ⟨q, false⟩ p =
          (⟨q ++ [p], false⟩, (p.length, none)) := by
        simp [audioWriter.Write, hlt]
      rw [writeMany, hw]
      rw [ih (q ++ [p]) (by simp; omega)]
      have hidx : (q ++ [p]).length + ps.length - cap =
          q.length + (p :: ps).length - cap := by simp; omega
      rw [hidx, List.append_assoc]
      simp
    · have hq' : q.length = cap := by omega
      cases q with
      | nil => exfalso; simp at hq'; omega
      | cons a t =>
        have hge : cap ≤ t.length + 1 := by simpa using hlt
        have hw : audioWriter.Write cap ⟨a :: t, false⟩ p =
            (⟨t ++ [p], false⟩, (p.length, none)) := by
          simp [audioWriter.Write, hge]
        rw [writeMany, hw]
        have hlen2 : (t ++ [p]).length ≤ cap := by
          rw [← hq']
          simp
        rw [ih (t ++ [p]) hlen2]
        simp only [List.length_cons, List.length_append, List.length_cons,
          List.length_nil] at hq' ⊢
        have e1 : t.length + (0 + 1) + ps.length - cap = ps.length := by omega
        have e2 : t.length + 1 + (ps.length + 1) - cap = ps.length + 1 := by
          omega
        rw [e1, e2]
        simp [List.append_assoc, List.drop_succ_cons]

/-- C2: with outbound capacity C, writing C+1 distinct chunks onto an open
`audioWriter` leaves exactly chunks 2..C+1 queued, in order; chunk 1 is
absent; and every write (including the one past capacity, which evicts the
oldest queued chunk) returns success `(len(p), nil)` without blocking. -/
theorem claim2 (cap : Nat) (chunks : List Chunk) (hcap : 0 < cap)
    (hlen : chunks.length = cap + 1) (hnd : chunks.Nodup) :
    (writeMany cap newAudioWriter chunks).1.queue = chunks.drop 1
    ∧ (∀ c ∈ chunks.take 1, c ∉ (writeMany cap newAudioWriter chunks).1.queue)
    ∧ (writeMany cap newAudioWriter chunks).2 =
        chunks.map fun p => (p.length, (none : Option IoError)) := by
  have h := writeMany_open cap hcap chunks [] (by simp)
  have hq : (writeMany cap newAudioWriter chunks).1.queue = chunks.drop 1 := by
    rw [show newAudioWriter = ⟨[], false⟩ from rfl, h]
    simp only [List.nil_append, List.length_nil, Nat.zero_add, hlen]
    have e1 : cap + 1 - cap = 1 := by omega
    rw [e1]
  refine ⟨hq, ?_, by rw [show newAudioWriter = ⟨[], false⟩ from rfl, h]⟩
  intro c hc
  rw [hq]
  cases chunks with
  | nil => simp at hc
  | cons c1 rest =>
    simp at hc
    subst hc
    simpa using (List.nodup_cons.mp hnd).1

/-- Witness for C2 at capacity 2 and chunks [1], [2], [3]. -/
theorem claim2_w :
    0 < 2 ∧ ([[1], [2], [3]] : List Chunk).length = 2 + 1
    ∧ ([[1], [2], [3]] : List Chunk).Nodup
    ∧ (writeMany 2 newAudioWriter [[1], [2], [3]]).1.queue = [[2], [3]]
    ∧ (writeMany 2 newAudioWriter [[1], [2], [3]]).2 =
        [(1, none), (1, none), (1, none)] :=
  ⟨by decide, by decide, by decide,
   (claim2 2 [[1], [2], [3]] (by decide) (by decide) (by decide)).1,
   by decide⟩

/-- Full characterization of a run of `audioReader.write` deliveries on a
reader whose queue has room: the queue keeps the oldest `cap` chunks, and
later deliveries are dropped. -/
theorem deliverMany_queue (cap : Nat) (chunks : List Chunk)
    (q : List Chunk) (buf : Chunk) (cl : Bool) (hq : q.length ≤ cap) :
    deliverMany cap ⟨q, buf, cl⟩ chunks = ⟨(q ++ chunks).take cap, buf, cl⟩ := by
  induction chunks generalizing q with
  | nil => simp [deliverMany, List.take_of_length_le hq]
  | cons d ds ih =>
    by_cases hlt : q.length < cap
    · rw [deliverMany]
      simp only [audioReader.write, hlt, if_true, if_pos]
      rw [ih (q ++ [d]) (by simp; omega)]
      simp [List.append_assoc]
    · have hq' : q.length = cap := by omega
      rw [deliverMany]
      simp only [audioReader.write, hlt, if_false]
      rw [ih q hq]
      rw [← hq', List.take_left, List.take_left]

/-- A reader whose chunks all fit in a destination of size `M` is drained
one whole chunk per read, in order. -/
theorem readExec_drain (M : Nat) (q : List Chunk) (cl : Bool)
    (hM : ∀ c ∈ q, c.length ≤ M) :
    readExec ⟨q, [], cl⟩ (List.replicate q.length M) = (q, ⟨[], [], cl⟩) := by
  induction q with
  | nil => simp [readExec]
  | cons d ds ih =>
    have hd : d.length ≤ M := hM d (by simp)
    have hr : audioReader.Read ⟨d :: ds, [], cl⟩ M =
        some (⟨ds, [], cl⟩, (d, none)) := by
      simp [audioReader.Read, Nat.min_eq_right hd]
    rw [List.length_cons, List.replicate_succ]
    simp only [readExec, hr]
    rw [ih (fun c hc => hM c (by simp [hc]))]

/-- C3: with inbound capacity C, delivering C+1 distinct chunks to the
`audioReader` keeps exactly chunks 1..C queued, in order; chunk C+1 is
absent; and reading with a large enough destination returns exactly chunks
1..C in order. -/
theorem claim3 (cap M : Nat) (chunks : List Chunk)
    (hlen : chunks.length = cap + 1) (hnd : chunks.Nodup)
    (hM : ∀ c ∈ chunks, c.length ≤ M) :
    (deliverMany cap newAudioReader chunks).queue = chunks.take cap
    ∧ (∀ c ∈ chunks.drop cap, c ∉ (deliverMany cap newAudioReader chunks).queue)
    ∧ (readExec (deliverMany cap newAudioReader chunks)
        (List.replicate cap M)).1 = chunks.take cap := by
  have h := deliverMany_queue cap chunks [] [] false (by simp)
  have hq : (deliverMany cap newAudioReader chunks).queue = chunks.take cap := by
    rw [show newAudioReader = ⟨[], [], false⟩ from rfl, h]
    simp
  have hnd2 : (chunks.take cap ++ chunks.drop cap).Nodup := by
    rw [List.take_append_drop]
    exact hnd
  have hdisj := List.disjoint_of_nodup_append hnd2
  refine ⟨hq, ?_, ?_⟩
  · intro c hcd hct
    rw [hq] at hct
    exact hdisj hct hcd
  · have hlen2 : (chunks.take cap).length = cap := by
      rw [List.length_take]
      omega
    rw [show newAudioReader = ⟨[], [], false⟩ from rfl, h]
    have hdr := readExec_drain M (chunks.take cap) false
      (fun c hc => hM c (List.mem_of_mem_take hc))
    rw [hlen2] at hdr
    simp only [List.nil_append]
    rw [hdr]

/-- Witness for C3 at capacity 2, destination size 2 and chunks
[1], [2], [3]. -/
theorem claim3_w :
    ([[1], [2], [3]] : List Chunk).length = 2 + 1
    ∧ ([[1], [2], [3]] : List Chunk).Nodup
    ∧ (∀ c ∈ ([[1], [2], [3]] : List Chunk), c.length ≤ 2)
    ∧ (deliverMany 2 newAudioReader [[1], [2], [3]]).queue = [[1], [2]]
    ∧ (readExec (deliverMany 2 newAudioReader [[1], [2], [3]])
         (List.replicate 2 2)).1 = [[1], [2]] :=
  ⟨by decide, by decide, by decide,
   (claim3 2 2 [[1], [2], [3]] (by decide) (by decide) (by decide)).1,
   (claim3 2 2 [[1], [2], [3]] (by decide) (by decide) (by decide)).2.2⟩

/-- A successful `audioReader.Read` removes from the front exactly the bytes
it returns: partial reads keep the chunk remainder ahead of later chunks. -/
theorem read_conserves (r : audioReader) (sz : Nat) (r1 : audioReader)
    (out : Chunk) (err : Option IoError)
    (h : audioReader.Read r sz = some (r1, (out, err))) :
    out ++ pendingBytes r1 = pendingBytes r := by
  unfold audioReader.Read at h
  by_cases hb : r.buffer.length > 0
  · rw [if_pos hb] at h
    simp only [Option.some.injEq, Prod.mk.injEq] at h
    obtain ⟨h1, h2, h3⟩ := h
    rw [← h1, ← h2]
    simp only [pendingBytes]
    rw [← List.append_assoc, List.take_append_drop]
  · rw [if_neg hb] at h
    have hbe : r.buffer = [] := by
      cases hx : r.buffer with
      | nil => rfl
      | cons a l => rw [hx] at hb; simp at hb
    cases hq : r.queue with
    | nil =>
      rw [hq] at h
      by_cases hc : r.closed = true
      · rw [if_pos hc] at h
        simp only [Option.some.injEq, Prod.mk.injEq] at h
        obtain ⟨h1, h2, h3⟩ := h
        rw [← h1, ← h2]
        simp
      · rw [if_neg hc] at h
        exact absurd h (by simp)
    | cons data rest =>
      rw [hq] at h
      simp only [Option.some.injEq, Prod.mk.injEq] at h
      obtain ⟨h1, h2, h3⟩ := h
      rw [← h1, ← h2]
      simp only [pendingBytes, hbe, hq, List.nil_append, List.flatten_cons]
      by_cases hn : min sz data.length < data.length
      · rw [if_pos hn]
        rw [← List.append_assoc, List.take_append_drop]
      · rw [if_neg hn]
        have hlen : min sz data.length = data.length := by omega
        rw [hlen, List.take_length]
        simp

/-- C10: inbound reads are byte-exact and order-preserving across partial
reads. First part: for any reader state and any sequence of destination
sizes, the concatenation of the returned byte slices plus what remains
pending equals what was pending initially. Second part: a reader holding a
sequence of chunks, read with destinations large enough, returns exactly
those chunks in order. -/
theorem claim10 :
    (∀ (r : audioReader) (sizes : List Nat),
      (readExec r sizes).1.flatten ++ pendingBytes (readExec r sizes).2 =
        pendingBytes r)
    ∧ (∀ (chunks : List Chunk) (M : Nat), (∀ c ∈ chunks, c.length ≤ M) →
      (readExec ⟨chunks, [], false⟩ (List.replicate chunks.length M)).1 =
        chunks) := by
  constructor
  · intro r sizes
    induction sizes generalizing r with
    | nil => simp [readExec]
    | cons sz rest ih =>
      cases hr : audioReader.Read r sz with
      | none => simp [readExec, hr]
      | some v =>
        obtain ⟨r1, out, err⟩ := v
        simp only [readExec, hr]
        rw [List.flatten_cons, List.append_assoc, ih r1,
          read_conserves r sz r1 out err hr]
  · intro chunks M hM
    rw [readExec_drain M chunks false hM]

/-- Witness for C10: a partial-read run on one 3-byte chunk with destination
size 2, and a full drain of two chunks with destination size 2. -/
theorem claim10_w :
    (readExec ⟨[[1, 2, 3]], [], false⟩ [2, 2]).1.flatten ++
        pendingBytes (readExec ⟨[[1, 2, 3]], [], false⟩ [2, 2]).2 =
      pendingBytes ⟨[[1, 2, 3]], [], false⟩
    ∧ (∀ c ∈ ([[1, 2], [3]] : List Chunk), c.length ≤ 2)
    ∧ (readExec ⟨[[1, 2], [3]], [], false⟩ (List.replicate 2 2)).1 =
        [[1, 2], [3]] :=
  ⟨claim10.1 ⟨[[1, 2, 3]], [], false⟩ [2, 2], by decide,
   claim10.2 [[1, 2], [3]] 2 (by decide)⟩

/-- A repeated `Connection.Close` (after the first) changes nothing and
returns `nil`. -/
theorem close_done (c : Connection) (reg : Registry)
    (h : c.closeOnceDone = true) :
    Connection.Close c reg = ((c, reg), none) := by
  simp [Connection.Close, h]

/-- Iterating `Connection.Close` on an already-closed connection changes
nothing and returns `nil` every time. -/
theorem closeIter_done (n : Nat) (c : Connection) (reg : Registry)
    (h : c.closeOnceDone = true) :
    closeIter n c reg = ((c, reg), List.replicate n none) := by
  induction n with
  | zero => simp [closeIter]
  | succ k ih => simp [closeIter, close_done c reg h, ih, List.replicate_succ]

/-- `Connection.Close` never emits an event: the emitted history is
untouched. -/
theorem close_emitted (c : Connection) (reg : Registry) :
    ((Connection.Close c reg).1.1).emitted = c.emitted := by
  rw [Connection.Close]
  split <;> rfl

/-- After `Connection.Close`, `closeOnce` has fired. -/
theorem close_onceDone (c : Connection) (reg : Registry) :
    ((Connection.Close c reg).1.1).closeOnceDone = true := by
  rw [Connection.Close]
  split
  · assumption
  · rfl

/-- `Connection.Close` always returns `nil`. -/
theorem close_err (c : Connection) (reg : Registry) :
    (Connection.Close c reg).2 = none := by
  rw [Connection.Close]
  split <;> rfl

/-- C5: N+1 invocations of `Connection.Close` on a connection whose
teardown has not yet run perform the teardown exactly once — socket closed
once, event channel closed once, both buffers closed once, registry
stream-id entry removed once — and every invocation returns `nil`. -/
theorem claim5 (c : Connection) (reg : Registry) (n : Nat)
    (h : Connection.pristine c = true) :
    ((closeIter (n + 1) c reg).1.1.socketCloseCount = 1
      ∧ (closeIter (n + 1) c reg).1.1.eventsCloseCount = 1
      ∧ (closeIter (n + 1) c reg).1.1.audioInCloseCount = 1
      ∧ (closeIter (n + 1) c reg).1.1.audioOutCloseCount = 1
      ∧ (closeIter (n + 1) c reg).1.1.registryDeleteCount = 1)
    ∧ (closeIter (n + 1) c reg).1.2 = reg.erase c.streamSID
    ∧ (closeIter (n + 1) c reg).2 = List.replicate (n + 1) none := by
  simp only [Connection.pristine, Bool.and_eq_true, Bool.not_eq_true',
    beq_iff_eq] at h
  obtain ⟨⟨⟨⟨⟨⟨h1, h2⟩, h3⟩, h4⟩, h5⟩, h6⟩, h7⟩ := h
  have hfst : Connection.Close c reg =
      (((Connection.Close c reg).1.1, reg.erase c.streamSID), none) := by
    rw [Connection.Close]
    rw [if_neg (by simp [h1])]
  have hdone := close_onceDone c reg
  have hrest := closeIter_done n (Connection.Close c reg).1.1
    (reg.erase c.streamSID) hdone
  have hiter : closeIter (n + 1) c reg =
      (((Connection.Close c reg).1.1, reg.erase c.streamSID),
        none :: List.replicate n none) := by
    rw [closeIter, hfst]
    simp only []
    exact congrArg (fun t => (t.1, (none : Option IoError) :: t.2)) hrest
  rw [hiter]
  refine ⟨⟨?_, ?_, ?_, ?_, ?_⟩, rfl, by simp [List.replicate_succ]⟩ <;>
    · rw [Connection.Close]
      rw [if_neg (by simp [h1])]
      simp [h2, h3, h4, h5, h6, h7]

/-- Witness for C5: three closes of a fresh connection. -/
theorem claim5_w :
    Connection.pristine newConnection = true
    ∧ (closeIter 3 newConnection ["x"]).1.1.socketCloseCount = 1
    ∧ (closeIter 3 newConnection ["x"]).2 = List.replicate 3 none :=
  ⟨by decide, (claim5 newConnection ["x"] 2 (by decide)).1.1,
   (claim5 newConnection ["x"] 2 (by decide)).2.2⟩

/-- C6: after a connection is closed, every outbound write fails with
`io.ErrClosedPipe` writing zero bytes; an inbound read with no buffered data
left returns `io.EOF`; and a read on a closed inbound buffer never blocks. -/
theorem claim6 (c : Connection) (reg : Registry) (cap plen : Nat) (p : Chunk)
    (h0 : c.closeOnceDone = false)
    (hq : c.audioOut.queue = []) (hb : c.audioOut.buffer = []) :
    audioWriter.Write cap ((Connection.Close c reg).1.1).audioIn p =
      (((Connection.Close c reg).1.1).audioIn, (0, some IoError.closedPipe))
    ∧ audioReader.Read ((Connection.Close c reg).1.1).audioOut plen =
        some (((Connection.Close c reg).1.1).audioOut, ([], some IoError.eof))
    ∧ (∀ r : audioReader, r.closed = true →
        audioReader.Read r plen ≠ none) := by
  have hin : ((Connection.Close c reg).1.1).audioIn =
      audioWriter.Close c.audioIn := by
    rw [Connection.Close, if_neg (by simp [h0])]
  have hout : ((Connection.Close c reg).1.1).audioOut =
      audioReader.close c.audioOut := by
    rw [Connection.Close, if_neg (by simp [h0])]
  have hinclosed : (audioWriter.Close c.audioIn).closed = true := by
    rw [audioWriter.Close]
    split
    · assumption
    · rfl
  refine ⟨?_, ?_, ?_⟩
  · rw [hin, audioWriter.Write, if_pos hinclosed]
  · rw [hout]
    rw [audioReader.Read]
    simp [audioReader.close, hq, hb]
  · intro r hr
    rw [audioReader.Read]
    by_cases hbuf : r.buffer.length > 0
    · simp [hbuf]
    · rw [if_neg hbuf]
      cases hque : r.queue with
      | nil => simp [hr]
      | cons a l => simp

/-- Witness for C6: write of one byte and read with a 4-byte destination on
a freshly closed connection. -/
theorem claim6_w :
    newConnection.closeOnceDone = false
    ∧ audioWriter.Write 3 ((Connection.Close newConnection []).1.1).audioIn
        [7] = (((Connection.Close newConnection []).1.1).audioIn,
               (0, some IoError.closedPipe))
    ∧ audioReader.Read ((Connection.Close newConnection []).1.1).audioOut 4 =
        some (((Connection.Close newConnection []).1.1).audioOut,
              ([], some IoError.eof)) :=
  ⟨by decide,
   (claim6 newConnection [] 3 4 [7] (by decide) (by decide) (by decide)).1,
   (claim6 newConnection [] 3 4 [7] (by decide) (by decide) (by decide)).2.1⟩

/-! ## Receive-loop step lemmas -/

/-- An unmarshal failure is skipped: same state, loop continues. -/
theorem readLoop_malformed (cap : Nat) (s : LoopState) (rest : List Inbound)
    (h : s.conn.doneClosed = false) :
    readLoop cap s (Inbound.malformed :: rest) = readLoop cap s rest := by
  rw [readLoop]
  simp [h]

/-- One `connected` frame emits the Connected event and continues. -/
theorem readLoop_connected (cap : Nat) (s : LoopState) (rest : List Inbound)
    (h : s.conn.doneClosed = false) :
    readLoop cap s (Inbound.msg connectedMsg :: rest) =
      readLoop cap (emitLS s evConnected) rest := by
  rw [readLoop]
  simp [h, connectedMsg]

/-- One `start` frame runs the start case and continues. -/
theorem readLoop_start (cap : Nat) (s : LoopState) (st : startMessage)
    (rest : List Inbound) (h : s.conn.doneClosed = false) :
    readLoop cap s (Inbound.msg (startMsg st) :: rest) =
      readLoop cap (startCase s (some st)) rest := by
  rw [readLoop]
  simp [h, startMsg]

/-- One `media` frame runs the media case and continues. -/
theorem readLoop_media (cap : Nat) (s : LoopState) (p : mediaPayload)
    (rest : List Inbound) (h : s.conn.doneClosed = false) :
    readLoop cap s (Inbound.msg (mediaMsg p) :: rest) =
      readLoop cap (mediaCase cap s (some p)) rest := by
  rw [readLoop]
  simp [h, mediaMsg]

/-- One `dtmf` frame runs the dtmf case and continues. -/
theorem readLoop_dtmf (cap : Nat) (s : LoopState) (d : String)
    (rest : List Inbound) (h : s.conn.doneClosed = false) :
    readLoop cap s (Inbound.msg (dtmfMsg d) :: rest) =
      readLoop cap (dtmfCase s (some (dtmfMessage.mk d))) rest := by
  rw [readLoop]
  simp [h, dtmfMsg]

/-- One `stop` frame emits AudioStopped then Disconnected, exits the loop,
and runs the deferred close; everything after it is unread. -/
theorem readLoop_stop (cap : Nat) (s : LoopState) (rest : List Inbound)
    (h : s.conn.doneClosed = false) :
    readLoop cap s (Inbound.msg stopMsg :: rest) =
      loopClose (emitLS (emitLS s evAudioStopped) evDisconnected) := by
  rw [readLoop]
  simp [h, stopMsg]

/-- A frame with an unknown event discriminator is skipped: same state, loop
continues. -/
theorem readLoop_unknown (cap : Nat) (s : LoopState) (m : mediaMessage)
    (rest : List Inbound) (h : s.conn.doneClosed = false)
    (h1 : m.event ≠ "connected") (h2 : m.event ≠ "start")
    (h3 : m.event ≠ "media") (h4 : m.event ≠ "dtmf")
    (h5 : m.event ≠ "stop") (h6 : m.event ≠ "mark") :
    readLoop cap s (Inbound.msg m :: rest) = readLoop cap s rest := by
  rw [readLoop]
  simp [h, h1, h2, h3, h4, h5, h6]

/-- A socket read error exits the loop: an Error event is emitted first
unless the error is a close error with code 1000 or 1001; then the deferred
close runs. -/
theorem readLoop_readErr (cap : Nat) (s : LoopState) (e : SocketErr)
    (rest : List Inbound) (h : s.conn.doneClosed = false) :
    readLoop cap s (Inbound.readErr e :: rest) =
      if isCloseErrorOn e [1000, 1001] then loopClose s
      else loopClose (emitLS s (evError e)) := by
  rw [readLoop]
  simp [h]

/-- The media case only touches the inbound audio buffer: events, identity,
registry, handler state and the done flag are unchanged. -/
theorem mediaCase_fields (cap : Nat) (s : LoopState)
    (mo : Option mediaPayload) :
    (mediaCase cap s mo).conn.emitted = s.conn.emitted
    ∧ (mediaCase cap s mo).conn.doneClosed = s.conn.doneClosed
    ∧ (mediaCase cap s mo).registry = s.registry
    ∧ (mediaCase cap s mo).conn.streamSID = s.conn.streamSID
    ∧ (mediaCase cap s mo).conn.callSID = s.conn.callSID := by
  cases mo with
  | none => exact ⟨rfl, rfl, rfl, rfl, rfl⟩
  | some mp =>
    rw [mediaCase]
    by_cases hp : mp.payload ≠ ""
    · rw [if_pos hp]
      cases hdec : b64decode mp.payload with
      | none => exact ⟨rfl, rfl, rfl, rfl, rfl⟩
      | some audio => exact ⟨rfl, rfl, rfl, rfl, rfl⟩
    · rw [if_neg hp]
      exact ⟨rfl, rfl, rfl, rfl, rfl⟩

/-- A whole run of media frames only touches the inbound audio buffer. -/
theorem mediaBatch_fields (cap : Nat) (ps : List mediaPayload)
    (s : LoopState) :
    (mediaBatch cap s ps).conn.emitted = s.conn.emitted
    ∧ (mediaBatch cap s ps).conn.doneClosed = s.conn.doneClosed
    ∧ (mediaBatch cap s ps).registry = s.registry
    ∧ (mediaBatch cap s ps).conn.streamSID = s.conn.streamSID
    ∧ (mediaBatch cap s ps).conn.callSID = s.conn.callSID := by
  induction ps generalizing s with
  | nil => exact ⟨rfl, rfl, rfl, rfl, rfl⟩
  | cons p ps ih =>
    have h1 := mediaCase_fields cap s (some p)
    have h2 := ih (mediaCase cap s (some p))
    rw [mediaBatch]
    exact ⟨h2.1.trans h1.1, h2.2.1.trans h1.2.1, h2.2.2.1.trans h1.2.2.1,
      h2.2.2.2.1.trans h1.2.2.2.1, h2.2.2.2.2.trans h1.2.2.2.2⟩

/-- Consuming a run of media frames is the same as applying the media case
payload by payload. -/
theorem readLoop_mediaBatch (cap : Nat) (ps : List mediaPayload)
    (s : LoopState) (rest : List Inbound) (h : s.conn.doneClosed = false) :
    readLoop cap s ((ps.map fun p => Inbound.msg (mediaMsg p)) ++ rest) =
      readLoop cap (mediaBatch cap s ps) rest := by
  induction ps generalizing s with
  | nil => rw [List.map_nil, List.nil_append, mediaBatch]
  | cons p ps ih =>
    rw [List.map_cons, List.cons_append, readLoop_media cap s p _ h,
      mediaBatch]
    exact ih (mediaCase cap s (some p))
      (((mediaCase_fields cap s (some p)).2.1).trans h)

/-- The dtmf case appends exactly one DTMF event; the done flag is
unchanged; the handler, when registered, receives the digit. -/
theorem dtmfCase_fields (s : LoopState) (d : String) :
    (dtmfCase s (some (dtmfMessage.mk d))).conn.emitted =
      s.conn.emitted ++ [evDTMF d]
    ∧ (dtmfCase s (some (dtmfMessage.mk d))).conn.doneClosed =
        s.conn.doneClosed
    ∧ (dtmfCase s (some (dtmfMessage.mk d))).dtmfCalls =
        s.dtmfCalls ++ (if s.dtmfHandlerSet then [d] else []) := by
  rw [dtmfCase]
  by_cases hh : s.dtmfHandlerSet = true
  · simp [emitLS, hh]
  · simp [emitLS, hh]

/-- The deferred close emits nothing. -/
theorem loopClose_emitted (s : LoopState) :
    (loopClose s).conn.emitted = s.conn.emitted :=
  close_emitted s.conn s.registry

/-- After the deferred close, the connection's teardown has run. -/
theorem loopClose_onceDone (s : LoopState) :
    (loopClose s).conn.closeOnceDone = true :=
  close_onceDone s.conn s.registry

/-- Registering under a stream id puts that id in the provider map. -/
theorem mem_insertKey_self (reg : Registry) (sid : String) :
    sid ∈ insertKey reg sid := by
  rw [insertKey]
  split
  · next h => exact List.elem_iff.mp h
  · simp

/-- Registering under a stream id keeps every existing key. -/
theorem mem_insertKey_mono (reg : Registry) (sid t : String)
    (h : t ∈ reg) : t ∈ insertKey reg sid := by
  rw [insertKey]
  split
  · exact h
  · exact List.mem_append_left _ h

/-- C1: for an inbound frame sequence connected, started, N audio frames,
dtmf, stopped, the receive loop emits exactly
[Connected, AudioStarted, DTMF, AudioStopped, Disconnected], in that order:
no event is emitted per audio chunk. -/
theorem claim1 (cap : Nat) (st : startMessage) (ps : List mediaPayload)
    (d : String) (reg : Registry) (hset : Bool) :
    (readLoop cap (initLoop reg hset) (seqC1 st ps d)).conn.emitted =
      [evConnected, evAudioStarted, evDTMF d, evAudioStopped,
       evDisconnected] := by
  have h0 : (initLoop reg hset).conn.doneClosed = false := rfl
  rw [seqC1]
  simp only [List.cons_append]
  rw [readLoop_connected cap _ _ h0]
  rw [readLoop_start cap (emitLS (initLoop reg hset) evConnected) st _ rfl]
  set s2 := startCase (emitLS (initLoop reg hset) evConnected) (some st)
    with hs2
  have h2 : s2.conn.doneClosed = false := rfl
  rw [readLoop_mediaBatch cap ps s2 _ h2]
  set s3 := mediaBatch cap s2 ps with hs3
  have h3 : s3.conn.doneClosed = false :=
    ((mediaBatch_fields cap ps s2).2.1).trans h2
  rw [readLoop_dtmf cap s3 d _ h3]
  set s4 := dtmfCase s3 (some (dtmfMessage.mk d)) with hs4
  have h4 : s4.conn.doneClosed = false :=
    ((dtmfCase_fields s3 d).2.1).trans h3
  rw [readLoop_stop cap s4 _ h4, loopClose_emitted]
  have he4 : s4.conn.emitted = s3.conn.emitted ++ [evDTMF d] :=
    (dtmfCase_fields s3 d).1
  have he3 : s3.conn.emitted = s2.conn.emitted :=
    (mediaBatch_fields cap ps s2).1
  have he2 : s2.conn.emitted = [evConnected, evAudioStarted] := rfl
  simp [emitLS, he4, he3, he2]

/-- C4 fails on the code: a second started frame with different ids does
not leave the first binding unchanged — it rebinds both fields. -/
theorem claim4_cex :
    (readLoop 100 (initLoop [] false)
      [Inbound.msg (startMsg { streamSID := "SA", callSID := "CA" }),
       Inbound.msg
         (startMsg { streamSID := "SB", callSID := "CB" })]).conn.streamSID =
      "SB"
    ∧ (readLoop 100 (initLoop [] false)
        [Inbound.msg (startMsg { streamSID := "SA", callSID := "CA" }),
         Inbound.msg
           (startMsg { streamSID := "SB", callSID := "CB" })]).conn.callSID =
        "CB"
    ∧ ("SB" : String) ≠ "SA" ∧ ("CB" : String) ≠ "CA" :=
  ⟨rfl, rfl, by decide, by decide⟩

/-- C4 amended: before any started frame the stream id and call id are
empty; every started frame rebinds both to its own values and registers the
connection under its stream id, so after a second started frame the
connection carries the second frame's ids while the provider map still
holds entries under both stream ids. -/
theorem claim4 (cap : Nat) (a b : startMessage) (reg : Registry)
    (hset : Bool) :
    ((initLoop reg hset).conn.streamSID = ""
      ∧ (initLoop reg hset).conn.callSID = "")
    ∧ ((readLoop cap (initLoop reg hset)
          [Inbound.msg (startMsg a),
           Inbound.msg (startMsg b)]).conn.streamSID = b.streamSID
      ∧ (readLoop cap (initLoop reg hset)
          [Inbound.msg (startMsg a),
           Inbound.msg (startMsg b)]).conn.callSID = b.callSID
      ∧ a.streamSID ∈ (readLoop cap (initLoop reg hset)
          [Inbound.msg (startMsg a), Inbound.msg (startMsg b)]).registry
      ∧ b.streamSID ∈ (readLoop cap (initLoop reg hset)
          [Inbound.msg (startMsg a), Inbound.msg (startMsg b)]).registry) := by
  have h0 : (initLoop reg hset).conn.doneClosed = false := rfl
  rw [readLoop_start cap _ a _ h0]
  rw [readLoop_start cap (startCase (initLoop reg hset) (some a)) b _ rfl]
  refine ⟨⟨rfl, rfl⟩, rfl, rfl, ?_, ?_⟩
  · exact mem_insertKey_mono _ _ _ (mem_insertKey_self reg a.streamSID)
  · exact mem_insertKey_self _ b.streamSID

/-- C7: a malformed unit (undecodable JSON, unknown event discriminator, or
audio frame whose base64 payload fails to decode) emits no event, changes
no state, and only that unit is discarded; a well-formed stopped frame
afterward still produces AudioStopped then Disconnected. -/
theorem claim7 (cap : Nat) (s : LoopState) (rest : List Inbound)
    (m : mediaMessage) (p : mediaPayload)
    (hdone : s.conn.doneClosed = false)
    (h1 : m.event ≠ "connected") (h2 : m.event ≠ "start")
    (h3 : m.event ≠ "media") (h4 : m.event ≠ "dtmf")
    (h5 : m.event ≠ "stop") (h6 : m.event ≠ "mark")
    (hp : p.payload ≠ "") (hpd : b64decode p.payload = none) :
    readLoop cap s (Inbound.malformed :: rest) = readLoop cap s rest
    ∧ readLoop cap s (Inbound.msg m :: rest) = readLoop cap s rest
    ∧ readLoop cap s (Inbound.msg (mediaMsg p) :: rest) = readLoop cap s rest
    ∧ (readLoop cap s [Inbound.malformed, Inbound.msg stopMsg]).conn.emitted =
        s.conn.emitted ++ [evAudioStopped, evDisconnected] := by
  have hmc : mediaCase cap s (some p) = s := by
    simp only [mediaCase]
    rw [if_pos hp, hpd]
  refine ⟨readLoop_malformed cap s rest hdone,
    readLoop_unknown cap s m rest hdone h1 h2 h3 h4 h5 h6, ?_, ?_⟩
  · rw [readLoop_media cap s p rest hdone, hmc]
  · rw [readLoop_malformed cap s _ hdone, readLoop_stop cap s _ hdone,
      loopClose_emitted]
    simp [emitLS]

/-- Witness for C7: unknown discriminator and a one-character payload that
is not valid base64, on a fresh loop state. -/
theorem claim7_w :
    (initLoop [] false).conn.doneClosed = false
    ∧ b64decode "%" = none
    ∧ readLoop 100 (initLoop [] false) [Inbound.msg { event := "frob" }] =
        readLoop 100 (initLoop [] false) []
    ∧ readLoop 100 (initLoop [] false)
        [Inbound.msg (mediaMsg { payload := "%" })] =
        readLoop 100 (initLoop [] false) []
    ∧ (readLoop 100 (initLoop [] false)
        [Inbound.malformed, Inbound.msg stopMsg]).conn.emitted =
        (initLoop [] false).conn.emitted ++ [evAudioStopped, evDisconnected] :=
  ⟨rfl, by decide,
   (claim7 100 (initLoop [] false) [] { event := "frob" } { payload := "%" }
      rfl (by decide) (by decide) (by decide) (by decide) (by decide)
      (by decide) (by decide) (by decide)).2.1,
   (claim7 100 (initLoop [] false) [] { event := "frob" } { payload := "%" }
      rfl (by decide) (by decide) (by decide) (by decide) (by decide)
      (by decide) (by decide) (by decide)).2.2.1,
   (claim7 100 (initLoop [] false) [] { event := "frob" } { payload := "%" }
      rfl (by decide) (by decide) (by decide) (by decide) (by decide)
      (by decide) (by decide) (by decide)).2.2.2⟩

/-- C8: on a socket read failure the loop emits an Error event carrying the
cause before terminating if and only if the failure is not a close error
with code 1000 (normal closure) or 1001 (going away); a clean stop frame
tears down with AudioStopped/Disconnected and no Error event. In every case
the deferred close runs. -/
theorem claim8 (cap : Nat) (s : LoopState) (e : SocketErr)
    (hdone : s.conn.doneClosed = false) :
    ((readLoop cap s [Inbound.readErr e]).conn.emitted =
        s.conn.emitted ++
          (if isCloseErrorOn e [1000, 1001] then [] else [evError e])
      ∧ (readLoop cap s [Inbound.readErr e]).conn.closeOnceDone = true)
    ∧ ((readLoop cap s [Inbound.msg stopMsg]).conn.emitted =
        s.conn.emitted ++ [evAudioStopped, evDisconnected]
      ∧ (readLoop cap s [Inbound.msg stopMsg]).conn.closeOnceDone = true) := by
  rw [readLoop_readErr cap s e [] hdone, readLoop_stop cap s [] hdone]
  refine ⟨⟨?_, ?_⟩, ?_, loopClose_onceDone _⟩
  · by_cases hc : isCloseErrorOn e [1000, 1001] = true
    · rw [if_pos hc, if_pos hc, loopClose_emitted]
      simp
    · rw [if_neg hc, if_neg hc, loopClose_emitted]
      simp [emitLS]
  · by_cases hc : isCloseErrorOn e [1000, 1001] = true
    · rw [if_pos hc]
      exact loopClose_onceDone s
    · rw [if_neg hc]
      exact loopClose_onceDone _
  · rw [loopClose_emitted]
    simp [emitLS]

/-- Witness for C8: an abnormal close error (code 1006) on a fresh loop
state emits the Error event; a normal closure (code 1000) emits nothing. -/
theorem claim8_w :
    (initLoop [] false).conn.doneClosed = false
    ∧ (readLoop 100 (initLoop [] false)
        [Inbound.readErr ⟨some 1006⟩]).conn.emitted =
      (initLoop [] false).conn.emitted ++
        (if isCloseErrorOn ⟨some 1006⟩ [1000, 1001] then []
         else [evError ⟨some 1006⟩])
    ∧ (readLoop 100 (initLoop [] false)
        [Inbound.readErr ⟨some 1000⟩]).conn.emitted =
      (initLoop [] false).conn.emitted ++
        (if isCloseErrorOn ⟨some 1000⟩ [1000, 1001] then []
         else [evError ⟨some 1000⟩]) :=
  ⟨rfl, ((claim8 100 (initLoop [] false) ⟨some 1006⟩ rfl).1).1,
   ((claim8 100 (initLoop [] false) ⟨some 1000⟩ rfl).1).1⟩

/-- C9 fails on the code: `Provider.Close` write-holds the provider mutex
while calling `Connection.Close` on each tracked connection, and a live
connection's close body re-acquires that same non-reentrant mutex, so the
call deadlocks (`none`) instead of completing teardown. With no live
connection it does empty both maps and return `nil`, idempotently. -/
theorem claim9 :
    Provider.Close ⟨[false], 1⟩ = none
    ∧ Provider.Close ⟨[true, true], 2⟩ = some (⟨[], 0⟩, none)
    ∧ Provider.Close ⟨[], 0⟩ = some (⟨[], 0⟩, none) :=
  ⟨rfl, rfl, rfl⟩

end TwilioMS
